import Mathlib

/-!
Verification development for the HMC road-based-attributes-to-GeoJSON pipeline
(`hmc_road_based_attributes_to_geojson.py`).

The script is shallowly embedded: JSON values become the inductive `J`,
Python runtime failures become `PyErr`, dictionaries become association
lists with first-match lookup and in-place update (matching CPython dict
semantics: insertion order preserved, updating an existing key keeps its
position), and the per-file processing of the script's `__main__` block is
the state-passing function `processFile` / `runFiles`.  Float arithmetic is
modelled exactly by the rational type `Q` below, whose operations reduce
inside the kernel so that concrete runs can be checked by `rfl`/`decide`.
-/

/-- Exact rationals with kernel-computable arithmetic (numerator, positive
denominator; every operation renormalizes through `mkQ`). -/
structure Q where
  num : Int
  den : Nat
deriving DecidableEq

/-- Euclidean gcd with structural fuel (fuel `a + 1` always suffices since
the first argument strictly decreases). -/
def natGcdFuel : Nat → Nat → Nat → Nat
  | 0, _, b => b
  | _ + 1, 0, b => b
  | f + 1, a + 1, b => natGcdFuel f (b % (a + 1)) (a + 1)

def natGcd (a b : Nat) : Nat := natGcdFuel (a + 1) a b

/-- Build a normalized rational from an integer numerator and denominator. -/
def mkQ (n d : Int) : Q :=
  let n' := if d < 0 then -n else n
  let dn := d.natAbs
  let g := natGcd n'.natAbs dn
  if g = 0 then ⟨0, 1⟩ else ⟨n' / (g : Int), dn / g⟩

/-- Integer as a rational. -/
def qi (n : Int) : Q := ⟨n, 1⟩

def Q.add (x y : Q) : Q := mkQ (x.num * y.den + y.num * x.den) (x.den * y.den)

def Q.sub (x y : Q) : Q := mkQ (x.num * y.den - y.num * x.den) (x.den * y.den)

def Q.mul (x y : Q) : Q := mkQ (x.num * y.num) (x.den * y.den)

def Q.div (x y : Q) : Q := mkQ (x.num * y.den) (x.den * y.num)

def Q.isZero (x : Q) : Bool := x.num == 0

/-- Value equality of rationals (cross multiplication). -/
def Q.qeq (x y : Q) : Bool := x.num * y.den == y.num * x.den

def Q.qle (x y : Q) : Bool := x.num * y.den ≤ y.num * x.den

def Q.qlt (x y : Q) : Bool := x.num * y.den < y.num * x.den

/-- Largest `r ≤ k` with `r * r ≤ n` (linear scan, structural). -/
def sqrtUpTo : Nat → Nat → Nat
  | 0, _ => 0
  | k + 1, n => if (k + 1) * (k + 1) ≤ n then k + 1 else sqrtUpTo k n

def natSqrt (n : Nat) : Nat := sqrtUpTo n n

/-- Exact square root of a normalized rational when one exists (the verified
geometric scenarios only take square roots of perfect squares, e.g. lengths
of axis-aligned segments). -/
def qSqrt (x : Q) : Q :=
  let sn := natSqrt x.num.toNat
  let sd := natSqrt x.den
  if 0 ≤ x.num && sn * sn == x.num.toNat && sd * sd == x.den then ⟨(sn : Int), sd⟩
  else ⟨0, 1⟩

/-- JSON-ish runtime values, mirroring what `json.loads` can produce.
Python distinguishes `int` and `float`; both are kept (`int` / `num`). -/
inductive J where
  | null
  | bool (b : Bool)
  | int (n : Int)
  | num (q : Q)
  | str (s : String)
  | arr (elems : List J)
  | obj (fields : List (String × J))

/-- Python runtime errors that the embedded fragments can raise. -/
inductive PyErr where
  | nameErr (s : String)
  | keyErr (s : String)
  | indexErr
  | attrErr (s : String)
  | typeErr
deriving DecidableEq

/-- First-match association-list lookup (CPython dict keys are unique, so
first match is the only match). -/
def alistGet {α : Type} : List (String × α) → String → Option α
  | [], _ => none
  | kv :: rest, key => if kv.1 = key then some kv.2 else alistGet rest key

/-- Dict update: overwrite in place if the key exists (keeping its position,
as CPython does), otherwise append at the end. -/
def alistSet {α : Type} : List (String × α) → String → α → List (String × α)
  | [], key, v => [(key, v)]
  | kv :: rest, key, v =>
    if kv.1 = key then (key, v) :: rest else kv :: alistSet rest key v

/-- Dict deletion (`del d[k]`). -/
def alistDel {α : Type} : List (String × α) → String → List (String × α)
  | [], _ => []
  | kv :: rest, key => if kv.1 = key then alistDel rest key else kv :: alistDel rest key

/-- Python truthiness of a value. -/
def J.truthy : J → Bool
  | .null => false
  | .bool b => b
  | .int n => n != 0
  | .num q => !q.isZero
  | .str s => !s.isEmpty
  | .arr xs => !xs.isEmpty
  | .obj fs => !fs.isEmpty

def J.isObj : J → Bool
  | .obj _ => true
  | _ => false

def J.hasKey : J → String → Bool
  | .obj fs, k => (alistGet fs k).isSome
  | _, _ => false

/-- Expression-level `Except` bind kept as an explicit match, so closed
computations reduce by `rfl` and symbolic proofs split cleanly. -/
def exBind {α β : Type} (x : Except PyErr α) (f : α → Except PyErr β) : Except PyErr β :=
  match x with
  | .error e => .error e
  | .ok a => f a

/-- Error-propagating left fold (the shape of every loop in the script:
one uncaught exception aborts the iteration). -/
def foldE {α β : Type} (f : β → α → Except PyErr β) : β → List α → Except PyErr β
  | b, [] => .ok b
  | b, a :: l =>
    match f b a with
    | .error e => .error e
    | .ok b' => foldE f b' l

/-- Python `d.get(k)`: `None` when the key is absent, `AttributeError` when
the receiver is not a dict. -/
def J.pyGet : J → String → Except PyErr J
  | .obj fs, k => .ok ((alistGet fs k).getD .null)
  | _, _ => .error (.attrErr "get")

/-- Python `d[k]` on a dict: `KeyError` when absent, `TypeError` on a
non-dict receiver. -/
def J.pyItem : J → String → Except PyErr J
  | .obj fs, k =>
    match alistGet fs k with
    | some v => .ok v
    | none => .error (.keyErr k)
  | _, _ => .error .typeErr

/-- Python list indexing `xs[i]`: negative indices count from the end,
anything still out of range raises `IndexError`. -/
def pyIndex (xs : List J) (i : Int) : Except PyErr J :=
  let j := if i < 0 then i + xs.length else i
  if h : 0 ≤ j ∧ j.toNat < xs.length then .ok (xs.get ⟨j.toNat, h.2⟩) else .error .indexErr

/-- Python list element assignment `xs[i] = v` (same index normalization). -/
def pyListSet (xs : List J) (i : Int) (v : J) : Except PyErr (List J) :=
  let j := if i < 0 then i + xs.length else i
  if 0 ≤ j ∧ j.toNat < xs.length then .ok (xs.set j.toNat v) else .error .indexErr

/-- A Python value used as a list index: ints (and bools, which are ints)
work, everything else is a `TypeError`. -/
def pyIdxInt : J → Except PyErr Int
  | .int n => .ok n
  | .bool b => .ok (if b then 1 else 0)
  | _ => .error .typeErr

/-! ### Geometry: lengths, interpolation and linear-referencing substring

The script takes base geometries from `hmc_layer_cross_referencing`
(`segment_list_generator` / `node_list_generator`) and slices them with
`shapely.ops.substring` (lines 157-175).  Both are outside this file's
source; following the spec they are modelled as a `GeometryIndex`
(`String → Option` maps below) and, modelled from the spec (§4.2 steps 5-6),
an arc-length substring: interpolated start point, the vertices strictly
between the two distances in original order, interpolated end point;
equal distances give a single interpolated point. -/

abbrev Pt := Q × Q

def segLen (p q : Pt) : Q :=
  qSqrt (Q.add (Q.mul (Q.sub q.1 p.1) (Q.sub q.1 p.1)) (Q.mul (Q.sub q.2 p.2) (Q.sub q.2 p.2)))

def polyLen : List Pt → Q
  | p :: q :: rest => Q.add (segLen p q) (polyLen (q :: rest))
  | _ => qi 0

def lerp (p q : Pt) (t : Q) : Pt :=
  (Q.add p.1 (Q.mul t (Q.sub q.1 p.1)), Q.add p.2 (Q.mul t (Q.sub q.2 p.2)))

/-- Point at arc-length distance `d` from the start of the polyline. -/
def interpolate : List Pt → Q → Pt
  | [], _ => (qi 0, qi 0)
  | [p], _ => p
  | p :: q :: rest, d =>
    let l := segLen p q
    if d.qle l then (if l.isZero then p else lerp p q (d.div l)) else interpolate (q :: rest) (Q.sub d l)

/-- Each vertex paired with its cumulative arc-length distance. -/
def cumulVerts : List Pt → Q → List (Pt × Q)
  | [], _ => []
  | [p], acc => [(p, acc)]
  | p :: q :: rest, acc => (p, acc) :: cumulVerts (q :: rest) (Q.add acc (segLen p q))

/-- Substring coordinates for `sd ≤ ed`. -/
def subCoordsAsc (cs : List Pt) (sd ed : Q) : List Pt :=
  interpolate cs sd ::
    ((cumulVerts cs (qi 0)).filterMap fun pd =>
      if sd.qlt pd.2 && pd.2.qlt ed then some pd.1 else none)
    ++ [interpolate cs ed]

/-- Modelled from the spec: `shapely.ops.substring` coordinate walk.  Equal
distances collapse to one interpolated point; a start beyond the end yields
the reversed walk. -/
def substringCoords (cs : List Pt) (sd ed : Q) : List Pt :=
  if sd.qeq ed then [interpolate cs sd]
  else if sd.qlt ed then subCoordsAsc cs sd ed
  else (subCoordsAsc cs ed sd).reverse

/-- Modelled from the spec: distances outside `[0, L]` are brought back into
range (negative distances measure from the end, then clamp). -/
def normDist (l d : Q) : Q :=
  let d' := if d.qlt (qi 0) then Q.add l d else d
  if d'.qlt (qi 0) then qi 0 else if l.qlt d' then l else d'

inductive Geom where
  | point (c : Pt)
  | linestring (cs : List Pt)
deriving DecidableEq

/-- Lines 157-175: length of the base geometry, fractional offsets scaled to
distances, substring, and the Point/LineString choice made by comparing the
*offsets* (`segment_start_offset == segment_end_offset`). -/
def segSlice (cs : List Pt) (s e : Q) : Geom :=
  let l := polyLen cs
  let coords := substringCoords cs (normDist l (l.mul s)) (normDist l (l.mul e))
  if s.qeq e then .point (coords.headD (qi 0, qi 0)) else .linestring coords

/-- Numeric coercion used where the script multiplies an offset value with a
length (non-numbers raise `TypeError`; Python bools are ints). -/
def toQNum : J → Except PyErr Q
  | .int n => .ok (qi n)
  | .num q => .ok q
  | .bool b => .ok (qi (if b then 1 else 0))
  | _ => .error .typeErr

/-- One offset field read (`if anchor.get(key): use it`): the stored value
is *used* only when truthy, otherwise the default `d` applies. -/
def offsetVal (anchor : J) (key : String) (d : Q) : Except PyErr Q :=
  exBind (anchor.pyGet key) fun v =>
  if v.truthy then toQNum v else .ok d

/-- Lines 149-156: the offset fields are consulted with `if anchor.get(...):`,
so an offset is *used* only when its value is truthy; a present-but-falsy
value (for example an explicit `0.0`) falls back to the default. -/
def effectiveOffsets (anchor : J) : Except PyErr (Q × Q) :=
  exBind (offsetVal anchor "firstSegmentStartOffset" (qi 0)) fun s =>
  exBind (offsetVal anchor "lastSegmentEndOffset" (qi 1)) fun e =>
  .ok (s, e)

/-! ### Attribute merging (`topology_anchor_attribute_mapping`, lines 22-59)

The script's function reads the module-level `hmc_json` and mutates the
anchor lists, which alias `hmc_json['segmentAnchor']` / `['nodeAnchor']`
(lines 97-98).  The partition dict is therefore threaded as the single
state `Obj`.  The `streetSection` loop (lines 28-34) only accumulates
partition names for the external downloader and never alters the data; it
is omitted. -/

abbrev Obj := List (String × J)

/-- Normalize an attribute's index value for iteration (line 43 wraps ints;
other values are iterated directly: lists elementwise, strings per
character, dicts over their keys, the rest raise `TypeError`). -/
def indexList : J → Except PyErr (List J)
  | .int n => .ok [.int n]
  | .bool b => .ok [.int (if b then 1 else 0)]
  | .arr xs => .ok xs
  | .str s => .ok (s.toList.map fun c => .str c.toString)
  | .obj fs => .ok (fs.map fun kv => .str kv.1)
  | _ => .error .typeErr

/-- Which anchor list an index field name targets (line 49). -/
def anchorKeyOf (index_name : String) : String :=
  if index_name = "nodeAnchorIndex" then "nodeAnchor" else "segmentAnchor"

/-- Lines 49-56: store the residual record under the collection name inside
the indexed anchor's `properties` (creating it when absent or falsy). -/
def attachTo (anchorKey attrName : String) (st : Obj) (idx : Int) (residual : J) :
    Except PyErr Obj :=
  match (alistGet st anchorKey).getD .null with
  | .arr anchors =>
    exBind (pyIndex anchors idx) fun anchor =>
    match anchor with
    | .obj fields =>
      let props := (alistGet fields "properties").getD .null
      exBind
        (if !props.truthy then
          .ok (alistSet fields "properties" (.obj [(attrName, residual)]))
        else
          match props with
          | .obj pf => .ok (alistSet fields "properties" (.obj (alistSet pf attrName residual)))
          | _ => .error .typeErr) fun fields' =>
      exBind (pyListSet anchors idx (.obj fields')) fun anchors' =>
      .ok (alistSet st anchorKey (.arr anchors'))
    | _ => .error (.attrErr "get")
  | _ => .error .typeErr

/-- Lines 36-57 for one element of the attribute collection: read the index
value (`is not None`, so a present falsy index *is* processed here), delete
the field, skip empty residuals, and attach per normalized index. -/
def mergeOne (index_name attrName : String) (st : Obj) (attr : J) :
    Except PyErr (Obj × J) :=
  exBind (attr.pyGet index_name) fun iv =>
  match iv with
  | .null => .ok (st, attr)
  | ivv =>
    match attr with
    | .obj afs =>
      let residual : J := .obj (alistDel afs index_name)
      exBind (indexList ivv) fun idxs =>
      exBind (foldE (fun acc idxJ =>
          match residual with
          | .obj [] => .ok acc
          | _ =>
            exBind (pyIdxInt idxJ) fun i =>
            attachTo (anchorKeyOf index_name) attrName acc i residual) st idxs) fun st' =>
      .ok (st', residual)
    | _ => .error (.attrErr "get")

/-- Lines 22-59: merge a whole attribute collection into the anchor lists,
writing the index-stripped elements back (in Python the elements are
mutated in place inside `hmc_json[attrName]`). -/
def topology_anchor_attribute_mapping (attrName index_name : String) (st : Obj) :
    Except PyErr Obj :=
  exBind ((J.obj st).pyItem attrName) fun attrListJ =>
  match attrListJ with
  | .arr attrs =>
    exBind (foldE (fun (acc : Obj × List J) a =>
        exBind (mergeOne index_name attrName acc.1 a) fun sa =>
        .ok (sa.1, acc.2 ++ [sa.2])) (st, []) attrs) fun res =>
    .ok (alistSet res.1 attrName (.arr res.2))
  | _ => .error .typeErr

/-! ### Index-field sniffing (segment pass lines 124-134, node pass 226-230) -/

/-- Lines 124-134, one key of the snapshot `list(hmc_json.keys())`: a
non-empty list value has its *first* element sniffed.  The first check
(`segmentAnchorIndex`) calls `.get` without an `isinstance` guard; the two
`elif`s are guarded; each check uses truthiness of the field value. -/
def segmentScanStep (st : Obj) (key : String) : Except PyErr Obj :=
  match (alistGet st key).getD .null with
  | .arr elems =>
    match elems with
    | [] => .ok st
    | e0 :: _ =>
      exBind (e0.pyGet "segmentAnchorIndex") fun v1 =>
      if v1.truthy then topology_anchor_attribute_mapping key "segmentAnchorIndex" st
      else if e0.isObj then
        exBind (e0.pyGet "originSegmentAnchorIndex") fun v2 =>
        if v2.truthy then topology_anchor_attribute_mapping key "originSegmentAnchorIndex" st
        else
          exBind (e0.pyGet "originatingSegmentAnchorIndex") fun v3 =>
          if v3.truthy then topology_anchor_attribute_mapping key "originatingSegmentAnchorIndex" st
          else .ok st
      else .ok st
  | _ => .ok st

def segmentScan (st : Obj) : Except PyErr Obj :=
  foldE segmentScanStep st (st.map Prod.fst)

/-- Lines 226-230, one key: *every* element of a list value gets an
unguarded `.get('nodeAnchorIndex')`; a truthy hit merges the whole
collection (which deletes the index fields, so later elements of the same
list no longer trigger).  Elements are re-read from the current state to
mirror Python's in-place mutation of the iterated list. -/
def nodeScanKey (st : Obj) (key : String) : Except PyErr Obj :=
  match (alistGet st key).getD .null with
  | .arr elems =>
    foldE (fun acc i =>
      match (alistGet acc key).getD .null with
      | .arr cur =>
        match cur.get? i with
        | some e =>
          exBind (e.pyGet "nodeAnchorIndex") fun v =>
          if v.truthy then topology_anchor_attribute_mapping key "nodeAnchorIndex" acc
          else .ok acc
        | none => .ok acc
      | _ => .ok acc) st (List.range elems.length)
  | _ => .ok st

def nodeScan (st : Obj) : Except PyErr Obj :=
  foldE nodeScanKey st (st.map Prod.fst)

/-! ### Cross-reference resolution (lines 176-184 and 245-253) -/

/-- Membership `idx in d` for a dict built by `enumerate` (integer keys
`0..len-1`; Python bools hash like ints). -/
def dictMem (len : Nat) : J → Bool
  | .int n => decide (0 ≤ n ∧ n < (len : Int))
  | .bool b => decide ((if b then 1 else 0) < len)
  | _ => false

/-- Lookup `d.get(idx)` on the same enumerate-dict. -/
def dictGet (anchors : List J) : J → Option J
  | .int n => if h : 0 ≤ n ∧ n.toNat < anchors.length then some (anchors.get ⟨n.toNat, h.2⟩) else none
  | .bool b => anchors.get? (if b then 1 else 0)
  | _ => none

/-- Iteration of the embedded index value (`for idx in indices` after the
scalar wrap on line 180-181 / 249-250). -/
def crossIdxList : J → Except PyErr (List J)
  | .int n => .ok [.int n]
  | .bool b => .ok [.int (if b then 1 else 0)]
  | .arr xs => .ok xs
  | .str s => .ok (s.toList.map fun c => .str c.toString)
  | .obj fs => .ok (fs.map fun kv => .str kv.1)
  | _ => .error .typeErr

/-- One `(attr_key, attr_val)` item of the snapshot `list(props.items())`:
a dict value containing the peer index field is resolved against the peer
anchor dict (`NameError` carrying `dn` when that variable is not yet
defined); indices missing from the dict are silently filtered out, and the
found *full anchor records* are stored under `rk` on the property map. -/
def crossRefStep (peerField rk dn : String) (peer : Option (List J))
    (acc : Obj) (kv : String × J) : Except PyErr Obj :=
  match kv.2 with
  | .obj vf =>
    match alistGet vf peerField with
    | some iv =>
      (match peer with
       | none => .error (.nameErr dn)
       | some peerList =>
         exBind (crossIdxList iv) fun idxs =>
         .ok (alistSet acc rk
           (.arr ((idxs.filter (dictMem peerList.length)).filterMap (dictGet peerList)))))
    | none => .ok acc
  | _ => .ok acc

/-- Lines 176-184 / 245-253: walk the property map's items. -/
def crossRef (peerField rk dn : String) (peer : Option (List J)) (props : J) :
    Except PyErr J :=
  match props with
  | .obj fields =>
    exBind (foldE (crossRefStep peerField rk dn peer) fields fields) fun fields' =>
    .ok (.obj fields')
  | _ => .error (.attrErr "items")

/-! ### Per-anchor processing -/

/-- An emitted GeoJSON feature (geometry plus the object the script assigns
to `.properties`, snapshotted at emission). -/
structure GFeature where
  geometry : Geom
  properties : J

/-- Lookup of an identifier value in a geometry map keyed by strings
(unhashable values raise `TypeError`, other hashables simply miss). -/
def identLookup {γ : Type} (m : String → Option γ) : J → Except PyErr (Option γ)
  | .str s => .ok (m s)
  | .arr _ => .error .typeErr
  | .obj _ => .error .typeErr
  | _ => .ok none

/-- Lines 142-197 for one oriented segment reference: resolve the referenced
geometry; when found, read offsets, slice, assign the *whole anchor record*
to `.properties` (line 165), run the segment-side cross-reference loop
against `node_anchor_dict`, and append one feature. -/
def processRef (segMap : String → Option (List Pt)) (nodeDict : Option (List J))
    (anchor r : J) : Except PyErr (J × List GFeature) :=
  exBind (r.pyItem "segmentRef") fun segRef =>
  exBind (segRef.pyItem "partitionName") fun _ =>
  exBind (segRef.pyItem "identifier") fun ident =>
  exBind (identLookup segMap ident) fun found =>
  match found with
  | none => .ok (anchor, [])
  | some cs =>
    exBind (effectiveOffsets anchor) fun se =>
    exBind (crossRef "nodeAnchorIndex" "resolvedNodeAnchors" "node_anchor_dict" nodeDict anchor)
      fun anchor' =>
    .ok (anchor', [⟨segSlice cs se.1 se.2, anchor'⟩])

/-- Lines 138-197 for one segment anchor: loop over
`anchor['orientedSegmentRef']`, emitting one feature per resolvable
reference. -/
def processSegmentAnchor (segMap : String → Option (List Pt)) (nodeDict : Option (List J))
    (anchor : J) : Except PyErr (J × List GFeature) :=
  exBind (anchor.pyItem "orientedSegmentRef") fun refsJ =>
  match refsJ with
  | .arr rs =>
    foldE (fun acc r =>
      exBind (processRef segMap nodeDict acc.1 r) fun afs =>
      .ok (afs.1, acc.2 ++ afs.2)) (anchor, []) rs
  | _ => .error .typeErr

/-- Lines 232-254 for one node anchor: point geometry looked up by
`nodeRef.identifier`, properties taken from the anchor's *property map*
(line 243), then the node-side cross-reference loop against
`segment_anchor_dict`. -/
def nodeAnchorStep (nodeMap : String → Option Pt) (segDict : Option (List J))
    (anchor : J) : Except PyErr (J × List GFeature) :=
  exBind (anchor.pyItem "nodeRef") fun nodeRef =>
  exBind (nodeRef.pyItem "partitionName") fun _ =>
  exBind (nodeRef.pyItem "identifier") fun ident =>
  exBind (identLookup nodeMap ident) fun found =>
  match found with
  | none => .ok (anchor, [])
  | some c =>
    exBind (anchor.pyItem "properties") fun props =>
    exBind (crossRef "segmentAnchorIndex" "resolvedSegmentAnchors" "segment_anchor_dict"
      segDict props) fun props' =>
    match anchor with
    | .obj afs => .ok (.obj (alistSet afs "properties" props'), [⟨.point c, props'⟩])
    | _ => .ok (anchor, [⟨.point c, props'⟩])

/-! ### Per-file pipeline and run state (lines 85-261)

`segment_anchor_dict` / `node_anchor_dict` are plain script-level
variables: they come into existence the first time a file defines them
(lines 110 / 205) and keep their previous value across loop iterations
otherwise — reading them before any definition is a `NameError`.  Output
files are opened with mode `w` (truncating) *before* attribute merging, and
written once at the end; `none` content below records a file that was
truncated but never (re)written. -/

structure RunSt where
  segDict : Option (List J)
  nodeDict : Option (List J)
  files : List (String × Option (List GFeature))
  err : Option PyErr

def initSt : RunSt := ⟨none, none, [], none⟩

/-- Lines 122-123 / 224-225: every anchor's `properties` entry is reset to an empty record. -/
def resetProps (st : Obj) (key : String) : Except PyErr Obj :=
  match (alistGet st key).getD .null with
  | .arr anchors =>
    exBind (foldE (fun acc a =>
        match a with
        | .obj afs => .ok (acc ++ [J.obj (alistSet afs "properties" (.obj []))])
        | _ => .error .typeErr) [] anchors) fun anchors' =>
    .ok (alistSet st key (.arr anchors'))
  | _ => .ok st

/-- Segment loop over the merged anchor list (lines 138-197). -/
def segmentAnchorsLoop (segMap : String → Option (List Pt)) (nodeDict : Option (List J))
    (anchors : List J) : Except PyErr (List J × List GFeature) :=
  foldE (fun acc a =>
    exBind (processSegmentAnchor segMap nodeDict a) fun afs =>
    .ok (acc.1 ++ [afs.1], acc.2 ++ afs.2)) ([], []) anchors

/-- Node loop over the merged anchor list (lines 232-254). -/
def nodeAnchorsLoop (nodeMap : String → Option Pt) (segDict : Option (List J))
    (anchors : List J) : Except PyErr (List J × List GFeature) :=
  foldE (fun acc a =>
    exBind (nodeAnchorStep nodeMap segDict a) fun afs =>
    .ok (acc.1 ++ [afs.1], acc.2 ++ afs.2)) ([], []) anchors

/-- Lines 109-202: the segment side of one file.  Returns the partition
state (whose `segmentAnchor` entry the anchor list aliases) and the run
state; a raised error is recorded in `err` with all file effects so far
kept. -/
def segmentPassRun (segMap : String → Option (List Pt)) (fname : String) (overwrite : Bool)
    (hmc : Obj) (rs : RunSt) : Obj × RunSt :=
  let segJ := (alistGet hmc "segmentAnchor").getD .null
  if !segJ.truthy then (hmc, rs) else
  match segJ with
  | .arr segList =>
    let rs1 : RunSt := { rs with segDict := some segList }
    let path := fname ++ "_segments.geojson"
    if (alistGet rs1.files path).isSome && !overwrite then (hmc, rs1)
    else
      let rs2 : RunSt := { rs1 with files := alistSet rs1.files path none }
      match resetProps hmc "segmentAnchor" with
      | .error e => (hmc, { rs2 with err := some e })
      | .ok hmc1 =>
        match segmentScan hmc1 with
        | .error e => (hmc1, { rs2 with err := some e })
        | .ok hmc2 =>
          match (alistGet hmc2 "segmentAnchor").getD .null with
          | .arr anchors =>
            match segmentAnchorsLoop segMap rs2.nodeDict anchors with
            | .error e => (hmc2, { rs2 with err := some e })
            | .ok res =>
              (alistSet hmc2 "segmentAnchor" (.arr res.1),
               { rs2 with segDict := some res.1,
                          files := alistSet rs2.files path (some res.2) })
          | _ => (hmc2, { rs2 with err := some .typeErr })
  | _ => (hmc, { rs with err := some .typeErr })

/-- Lines 204-261: the node side of one file. -/
def nodePassRun (nodeMap : String → Option Pt) (fname : String) (overwrite : Bool)
    (hmc : Obj) (rs : RunSt) : Obj × RunSt :=
  let nodeJ := (alistGet hmc "nodeAnchor").getD .null
  if !nodeJ.truthy then (hmc, rs) else
  match nodeJ with
  | .arr nodeList =>
    let rs1 : RunSt := { rs with nodeDict := some nodeList }
    let path := fname ++ "_nodes.geojson"
    if (alistGet rs1.files path).isSome && !overwrite then (hmc, rs1)
    else
      let rs2 : RunSt := { rs1 with files := alistSet rs1.files path none }
      match resetProps hmc "nodeAnchor" with
      | .error e => (hmc, { rs2 with err := some e })
      | .ok hmc1 =>
        match nodeScan hmc1 with
        | .error e => (hmc1, { rs2 with err := some e })
        | .ok hmc2 =>
          match (alistGet hmc2 "nodeAnchor").getD .null with
          | .arr anchors =>
            match nodeAnchorsLoop nodeMap rs2.segDict anchors with
            | .error e => (hmc2, { rs2 with err := some e })
            | .ok res =>
              (alistSet hmc2 "nodeAnchor" (.arr res.1),
               { rs2 with nodeDict := some res.1,
                          files := alistSet rs2.files path (some res.2) })
          | _ => (hmc2, { rs2 with err := some .typeErr })
  | _ => (hmc, { rs with err := some .typeErr })

/-- Lines 92-261: one decoded partition file (segment pass then node pass). -/
def processFile (segMap : String → Option (List Pt)) (nodeMap : String → Option Pt)
    (overwrite : Bool) (fname : String) (hmc : Obj) (rs : RunSt) : RunSt :=
  let sr := segmentPassRun segMap fname overwrite hmc rs
  match sr.2.err with
  | some _ => sr.2
  | none => (nodePassRun nodeMap fname overwrite sr.1 sr.2).2

/-- The outer directory walk (lines 85-91): files are processed in order;
an uncaught exception aborts the entire run. -/
def runFiles (segMap : String → Option (List Pt)) (nodeMap : String → Option Pt)
    (overwrite : Bool) (inputs : List (String × Obj)) (rs : RunSt) : RunSt :=
  match inputs with
  | [] => rs
  | f :: rest =>
    let rs' := processFile segMap nodeMap overwrite f.1 f.2 rs
    match rs'.err with
    | some _ => rs'
    | none => runFiles segMap nodeMap overwrite rest rs'

/-! ### Concrete fixtures used by the claim theorems -/

def lineA : List Pt := [(qi 0, qi 0), (qi 10, qi 0)]

def lineB : List Pt := [(qi 0, qi 5), (qi 10, qi 5)]

/-- GeometryIndex segment side: two known identifiers. -/
def segMapAB : String → Option (List Pt) := fun s =>
  if s = "segA" then some lineA else if s = "segB" then some lineB else none

/-- GeometryIndex node side: one known identifier. -/
def nodeMap1 : String → Option Pt := fun s =>
  if s = "nodeX" then some (qi 3, qi 4) else none

/-- An oriented segment reference record. -/
def mkRef (pid sid : String) : J :=
  .obj [("segmentRef", .obj [("partitionName", .str pid), ("identifier", .str sid)])]

/-- A node reference record. -/
def mkNodeRef (pid nid : String) : J :=
  .obj [("partitionName", .str pid), ("identifier", .str nid)]

/-! ### Shape predicates for the general segment-anchor theorems -/

/-- A well-shaped oriented segment reference: a record holding a
`segmentRef` record with a `partitionName` and a string `identifier`. -/
def refOk : J → Bool
  | .obj fsr =>
    (match alistGet fsr "segmentRef" with
     | some (.obj sf) =>
       (alistGet sf "partitionName").isSome &&
       (match alistGet sf "identifier" with
        | some (.str _) => true
        | _ => false)
     | _ => false)
  | _ => false

/-- The identifier a well-shaped reference carries. -/
def refIdent : J → Option String
  | .obj fsr =>
    (match alistGet fsr "segmentRef" with
     | some (.obj sf) =>
       (match alistGet sf "identifier" with
        | some (.str s) => some s
        | _ => none)
     | _ => none)
  | _ => none

/-- Whether a reference's identifier is present in the geometry index. -/
def resolvesIn (m : String → Option (List Pt)) (r : J) : Bool :=
  match refIdent r with
  | some s => (m s).isSome
  | none => false

/-- Offset field values the script can consume without raising: numbers and
bools are always fine, any falsy value falls back to the default. -/
def offsetValOk : J → Bool
  | .int _ => true
  | .num _ => true
  | .bool _ => true
  | .null => true
  | .str s => s.isEmpty
  | .arr xs => xs.isEmpty
  | .obj fs => fs.isEmpty

/-- A property value that cannot trigger the cross-reference branch for
`peerField` (not a record, or a record without that field). -/
def xrefFree (peerField : String) : J → Bool
  | .obj vf => (alistGet vf peerField).isNone
  | _ => true

/-- Segment anchors on which the per-reference loop provably runs to
completion without touching the peer anchor dict: readable offsets, no
embedded `nodeAnchorIndex`, and well-shaped references. -/
def anchorOk (anchor : J) : Bool :=
  match anchor with
  | .obj afs =>
    offsetValOk ((alistGet afs "firstSegmentStartOffset").getD .null) &&
    offsetValOk ((alistGet afs "lastSegmentEndOffset").getD .null) &&
    afs.all (fun kv => xrefFree "nodeAnchorIndex" kv.2) &&
    (match alistGet afs "orientedSegmentRef" with
     | some (.arr rs) => rs.all refOk
     | _ => false)
  | _ => false

/-- The oriented reference list of a segment anchor. -/
def anchorRefs (anchor : J) : List J :=
  match anchor with
  | .obj afs =>
    (match alistGet afs "orientedSegmentRef" with
     | some (.arr rs) => rs
     | _ => [])
  | _ => []

/-! ### Per-claim fixtures -/

/-- Segment anchor whose record embeds a `nodeAnchorIndex` cross-reference. -/
def c1segAnchor : J :=
  .obj [("orientedSegmentRef", .arr [mkRef "P" "segA"]),
        ("xref", .obj [("nodeAnchorIndex", .arr [.int 0])])]

def c1part : Obj :=
  [("partitionName", .str "P"),
   ("segmentAnchor", .arr [c1segAnchor]),
   ("nodeAnchor", .arr [.obj [("nodeRef", mkNodeRef "P" "nodeX")]])]

/-- A partition (from a different tile) holding only a node anchor. -/
def c1partA : Obj :=
  [("partitionName", .str "A"),
   ("nodeAnchor", .arr [.obj [("nodeRef", mkNodeRef "A" "nodeOld")]])]

def c1run1 : RunSt := runFiles segMapAB nodeMap1 false [("f1", c1part)] initSt

def c1run2 : RunSt := runFiles segMapAB nodeMap1 false [("fA", c1partA), ("fB", c1part)] initSt

/-- The node anchor of partition `A` as it looks after `A`'s node pass. -/
def c1staleNode : J := .obj [("nodeRef", mkNodeRef "A" "nodeOld"), ("properties", .obj [])]

/-- Properties of the feature the second run emits for partition `P`'s
segment anchor: the cross-reference resolved against partition `A`. -/
def c1fbProps : J :=
  .obj [("orientedSegmentRef", .arr [mkRef "P" "segA"]),
        ("xref", .obj [("nodeAnchorIndex", .arr [.int 0])]),
        ("properties", .obj []),
        ("resolvedNodeAnchors", .arr [c1staleNode])]

/-- Segment anchor with three references, two of which resolve. -/
def c2Anchor : J :=
  .obj [("orientedSegmentRef", .arr [mkRef "P" "segA", mkRef "P" "segC", mkRef "P" "segB"])]

def c2Feats : List GFeature :=
  [⟨.linestring [(qi 0, qi 0), (qi 10, qi 0)], c2Anchor⟩,
   ⟨.linestring [(qi 0, qi 5), (qi 10, qi 5)], c2Anchor⟩]

/-- Partition whose only attribute collection carries `segmentAnchorIndex`
with the given value on its first (and only) element. -/
def c3part (v : J) : Obj :=
  [("partitionName", .str "P"),
   ("segmentAnchor", .arr [.obj [("orientedSegmentRef", .arr [mkRef "P" "segA"])]]),
   ("speedLimit", .arr [.obj [("segmentAnchorIndex", v), ("limit", .int 50)]])]

/-- `c3part` after the collection has been merged onto anchor 0. -/
def c3merged : Obj :=
  [("partitionName", .str "P"),
   ("segmentAnchor", .arr [.obj [("orientedSegmentRef", .arr [mkRef "P" "segA"]),
                                 ("properties", .obj [("speedLimit", .obj [("limit", .int 50)])])]]),
   ("speedLimit", .arr [.obj [("limit", .int 50)]])]

/-- Node-side partition whose collection's *first* element has no index
field but whose second element does. -/
def c3nodePart : Obj :=
  [("nodeAnchor", .arr [.obj [("nodeRef", mkNodeRef "P" "nodeX")]]),
   ("acc", .arr [.obj [("other", .int 1)],
                 .obj [("nodeAnchorIndex", .arr [.int 0]), ("val", .int 7)]])]

def c3nodeMerged : Obj :=
  [("nodeAnchor", .arr [.obj [("nodeRef", mkNodeRef "P" "nodeX"),
                              ("properties", .obj [("acc", .obj [("val", .int 7)])])]]),
   ("acc", .arr [.obj [("other", .int 1)], .obj [("val", .int 7)]])]

def c4part : Obj :=
  [("partitionName", .str "P"),
   ("segmentAnchor", .arr [.obj [("orientedSegmentRef", .arr [mkRef "P" "segA"])]]),
   ("nodeAnchor", .arr [.obj [("nodeRef", mkNodeRef "P" "nodeX")]]),
   ("speedLimit", .arr [.obj [("segmentAnchorIndex", .arr [.int 0]), ("limit", .int 50)]]),
   ("accessAttr", .arr [.obj [("nodeAnchorIndex", .arr [.int 0]), ("acc", .int 9)]])]

def c4run : RunSt := runFiles segMapAB nodeMap1 false [("f1", c4part)] initSt

/-- What the emitted segment feature's `properties` actually is: the whole
anchor record. -/
def c4segProps : J :=
  .obj [("orientedSegmentRef", .arr [mkRef "P" "segA"]),
        ("properties", .obj [("speedLimit", .obj [("limit", .int 50)])])]

/-- What the emitted node feature's `properties` actually is: the property
map alone. -/
def c4nodeProps : J := .obj [("accessAttr", .obj [("acc", .int 9)])]

/-- Segment anchor carrying an explicit `lastSegmentEndOffset` of `0.0`. -/
def c5anchor : J :=
  .obj [("orientedSegmentRef", .arr [mkRef "P" "segA"]),
        ("lastSegmentEndOffset", .num (qi 0))]

/-- Segment anchor with both offset fields set to the given numbers. -/
def offsetAnchor (s e : Q) : J :=
  .obj [("orientedSegmentRef", .arr [mkRef "P" "segA"]),
        ("firstSegmentStartOffset", .num s), ("lastSegmentEndOffset", .num e)]

/-- Segment anchors of the C7 partition after its segment pass (anchor 2
carries the merged `cond` attribute). -/
def c7seg0 : J := .obj [("orientedSegmentRef", .arr []), ("properties", .obj [])]

def c7seg2 : J :=
  .obj [("orientedSegmentRef", .arr []),
        ("properties", .obj [("cond", .obj [("tag", .str "T")])])]

def c7segs : List J := [c7seg0, c7seg0, c7seg2]

/-- Node property map embedding `segmentAnchorIndex: [2, n]`. -/
def c7props (n : Int) : J :=
  .obj [("xattr", .obj [("segmentAnchorIndex", .arr [.int 2, .int n]), ("w", .int 2)])]

/-- The property map the claim expects to be resolved (anchor 2's property
map alone). -/
def c7map2 : J := .obj [("cond", .obj [("tag", .str "T")])]

/-- Full partition for the C7 end-to-end counterexample. -/
def c7part : Obj :=
  [("partitionName", .str "P"),
   ("segmentAnchor", .arr [.obj [("orientedSegmentRef", .arr [])],
                           .obj [("orientedSegmentRef", .arr [])],
                           .obj [("orientedSegmentRef", .arr [])]]),
   ("nodeAnchor", .arr [.obj [("nodeRef", mkNodeRef "P" "nodeX")]]),
   ("cond", .arr [.obj [("segmentAnchorIndex", .arr [.int 2]), ("tag", .str "T")]]),
   ("xattr", .arr [.obj [("nodeAnchorIndex", .arr [.int 0]), ("w", .int 1)],
                   .obj [("nodeAnchorIndex", .arr [.int 0]),
                         ("segmentAnchorIndex", .arr [.int 2, .int 7]), ("w", .int 2)]])]

def c7run : RunSt := runFiles segMapAB nodeMap1 false [("f1", c7part)] initSt

/-- The node feature properties the C7 partition actually produces. -/
def c7outProps : J :=
  .obj [("xattr", .obj [("segmentAnchorIndex", .arr [.int 2, .int 7]), ("w", .int 2)]),
        ("resolvedSegmentAnchors", .arr [c7seg2])]

/-- Partition whose attribute record points at segment anchor index `v` of a
one-anchor collection. -/
def c9file (v : J) : Obj :=
  [("partitionName", .str "P"),
   ("segmentAnchor", .arr [.obj [("orientedSegmentRef", .arr [mkRef "P" "segA"])]]),
   ("speedLimit", .arr [.obj [("segmentAnchorIndex", v), ("limit", .int 30)]])]

/-- A second, healthy partition file processed after `c9file`. -/
def c9fileB : Obj :=
  [("partitionName", .str "Q"),
   ("segmentAnchor", .arr [.obj [("orientedSegmentRef", .arr [mkRef "Q" "segB"])]])]

def c9run (v : J) : RunSt :=
  runFiles segMapAB nodeMap1 false [("f1", c9file v), ("f2", c9fileB)] initSt

/-- The feature list written for `c9file (-1)`: the record lands on the
*last* anchor via Python's negative indexing. -/
def c9wrapFeats : List GFeature :=
  [⟨.linestring [(qi 0, qi 0), (qi 10, qi 0)],
    .obj [("orientedSegmentRef", .arr [mkRef "P" "segA"]),
          ("properties", .obj [("speedLimit", .obj [("limit", .int 30)])])]⟩]

/-- The C9 partition file after its segment-anchor properties reset, with
the out-of-range index still symbolic. -/
def c9r (n : Int) : Obj :=
  [("partitionName", .str "P"),
   ("segmentAnchor", .arr [.obj [("orientedSegmentRef", .arr [mkRef "P" "segA"]),
                                 ("properties", .obj [])]]),
   ("speedLimit", .arr [.obj [("segmentAnchorIndex", .int n), ("limit", .int 30)]])]

/-! ## Theorems -/

@[simp] theorem exBind_ok {α β : Type} (a : α) (f : α → Except PyErr β) :
    exBind (.ok a) f = f a := rfl

@[simp] theorem exBind_error {α β : Type} (e : PyErr) (f : α → Except PyErr β) :
    exBind (.error e) f = .error e := rfl

@[simp] theorem foldE_nil {α β : Type} (f : β → α → Except PyErr β) (b : β) :
    foldE f b [] = .ok b := rfl

theorem foldE_cons {α β : Type} (f : β → α → Except PyErr β) (b : β) (a : α) (l : List α) :
    foldE f b (a :: l) =
      match f b a with
      | .error e => .error e
      | .ok b' => foldE f b' l := rfl

theorem pyGet_obj (fs : List (String × J)) (k : String) :
    (J.obj fs).pyGet k = .ok ((alistGet fs k).getD .null) := rfl

theorem pyGet_nonObj (x : J) (k : String) (h : x.isObj = false) :
    x.pyGet k = .error (.attrErr "get") := by
  cases x <;> simp [J.isObj] at h ⊢ <;> rfl

theorem pyItem_obj (fs : List (String × J)) (k : String) :
    (J.obj fs).pyItem k =
      (match alistGet fs k with
       | some v => Except.ok v
       | none => Except.error (.keyErr k)) := rfl

theorem identLookup_str (m : String → Option (List Pt)) (s : String) :
    identLookup m (.str s) = .ok (m s) := rfl

theorem offsetVal_ok (afs : List (String × J)) (k : String) (d : Q)
    (h : offsetValOk ((alistGet afs k).getD .null) = true) :
    ∃ q, offsetVal (.obj afs) k d = .ok q := by
  unfold offsetVal
  rw [pyGet_obj, exBind_ok]
  rcases hv : (alistGet afs k).getD .null with _ | b | n | q | s | xs | fs <;>
    rw [hv] at h <;> simp [offsetValOk] at h <;>
    simp [J.truthy, toQNum, h] <;> first
      | exact ⟨_, rfl⟩
      | (cases b <;> simp <;> exact ⟨_, rfl⟩)
      | (split <;> exact ⟨_, rfl⟩)
      | skip

theorem effOffsets_ok (afs : List (String × J))
    (h1 : offsetValOk ((alistGet afs "firstSegmentStartOffset").getD .null) = true)
    (h2 : offsetValOk ((alistGet afs "lastSegmentEndOffset").getD .null) = true) :
    ∃ se, effectiveOffsets (.obj afs) = .ok se := by
  obtain ⟨s, hs⟩ := offsetVal_ok afs "firstSegmentStartOffset" (qi 0) h1
  obtain ⟨e, he⟩ := offsetVal_ok afs "lastSegmentEndOffset" (qi 1) h2
  exact ⟨(s, e), by unfold effectiveOffsets; rw [hs, exBind_ok, he, exBind_ok]⟩

theorem crossRefStep_skip (pf rk dn : String) (peer : Option (List J))
    (acc : Obj) (k : String) (v : J) (h : xrefFree pf v = true) :
    crossRefStep pf rk dn peer acc (k, v) = .ok acc := by
  cases v <;> simp [xrefFree] at h ⊢ <;> simp [crossRefStep] <;> simp [h]

theorem crossRef_skips (pf rk dn : String) (peer : Option (List J))
    (fields : List (String × J))
    (h : ∀ kv ∈ fields, xrefFree pf kv.2 = true) :
    crossRef pf rk dn peer (.obj fields) = .ok (.obj fields) := by
  have hfold : ∀ (l : List (String × J)) (acc : Obj), (∀ kv ∈ l, xrefFree pf kv.2 = true) →
      foldE (crossRefStep pf rk dn peer) acc l = .ok acc := by
    intro l
    induction l with
    | nil => intro acc _; rfl
    | cons kv tl ih =>
      intro acc hl
      rw [foldE_cons, crossRefStep_skip pf rk dn peer acc kv.1 kv.2 (hl kv (by simp))]
      exact ih acc (fun kv' hkv' => hl kv' (by simp [hkv']))
  show exBind (foldE (crossRefStep pf rk dn peer) fields fields)
      (fun fields' => Except.ok (J.obj fields')) = Except.ok (J.obj fields)
  rw [hfold fields fields h, exBind_ok]

theorem processRef_spec (m : String → Option (List Pt)) (nd : Option (List J))
    (afs : List (String × J)) (r : J)
    (h1 : offsetValOk ((alistGet afs "firstSegmentStartOffset").getD .null) = true)
    (h2 : offsetValOk ((alistGet afs "lastSegmentEndOffset").getD .null) = true)
    (hx : ∀ kv ∈ afs, xrefFree "nodeAnchorIndex" kv.2 = true)
    (hr : refOk r = true) :
    ∃ fs, processRef m nd (.obj afs) r = .ok (.obj afs, fs) ∧
      fs.length = (if resolvesIn m r then 1 else 0) := by
  rcases r with _ | b | n | q | s | xs | fsr <;> simp [refOk] at hr
  rcases hseg : alistGet fsr "segmentRef" with _ | sr
  · rw [hseg] at hr; simp at hr
  rw [hseg] at hr
  rcases sr with _ | b | n | q | s | xs | sf <;> simp at hr
  rcases hid : alistGet sf "identifier" with _ | idv
  · rw [hid] at hr; simp at hr
  rw [hid] at hr
  rcases idv with _ | b | n | q | s0 | xs | fs2 <;> simp at hr
  rcases hpn : alistGet sf "partitionName" with _ | pv
  · rw [hpn] at hr; simp at hr
  rcases hm : m s0 with _ | cs
  · unfold processRef
    rw [pyItem_obj fsr, hseg, exBind_ok, pyItem_obj sf, hpn, exBind_ok,
      pyItem_obj sf, hid, exBind_ok, identLookup_str, exBind_ok]
    simp only [hm]
    exact ⟨[], rfl, by simp [resolvesIn, refIdent, hseg, hid, hm]⟩
  obtain ⟨se, hse⟩ := effOffsets_ok afs h1 h2
  unfold processRef
  rw [pyItem_obj fsr, hseg, exBind_ok, pyItem_obj sf, hpn, exBind_ok,
    pyItem_obj sf, hid, exBind_ok, identLookup_str, exBind_ok]
  simp only [hm]
  rw [hse, exBind_ok,
    crossRef_skips "nodeAnchorIndex" "resolvedNodeAnchors" "node_anchor_dict" nd afs hx,
    exBind_ok]
  exact ⟨[⟨segSlice cs se.1 se.2, .obj afs⟩], rfl,
    by simp [resolvesIn, refIdent, hseg, hid, hm]⟩

theorem segRefs_fold (m : String → Option (List Pt)) (nd : Option (List J))
    (afs : List (String × J))
    (h1 : offsetValOk ((alistGet afs "firstSegmentStartOffset").getD .null) = true)
    (h2 : offsetValOk ((alistGet afs "lastSegmentEndOffset").getD .null) = true)
    (hx : ∀ kv ∈ afs, xrefFree "nodeAnchorIndex" kv.2 = true) :
    ∀ (rs : List J) (acc : List GFeature), (∀ r ∈ rs, refOk r = true) →
    ∃ fs, foldE (fun acc r => exBind (processRef m nd acc.1 r) fun a => .ok (a.1, acc.2 ++ a.2))
        (J.obj afs, acc) rs = .ok (.obj afs, acc ++ fs) ∧
      fs.length = rs.countP (resolvesIn m) := by
  intro rs
  induction rs with
  | nil => intro acc _; exact ⟨[], by simp, by simp⟩
  | cons r tl ih =>
    intro acc hall
    obtain ⟨fs1, hr1, hl1⟩ := processRef_spec m nd afs r h1 h2 hx (hall r (by simp))
    obtain ⟨fs2, hr2, hl2⟩ := ih (acc ++ fs1) (fun r' hr' => hall r' (by simp [hr']))
    refine ⟨fs1 ++ fs2, ?_, ?_⟩
    · rw [foldE_cons, hr1, exBind_ok]
      simpa [List.append_assoc] using hr2
    · simp [List.countP_cons, hl1, hl2]
      omega

/-- For any well-shaped segment anchor, the per-reference loop emits exactly
one feature per reference whose identifier resolves in the geometry index. -/
theorem segment_feature_count (m : String → Option (List Pt)) (nd : Option (List J))
    (anchor : J) (ha : anchorOk anchor = true) :
    ∃ fs, processSegmentAnchor m nd anchor = .ok (anchor, fs) ∧
      fs.length = (anchorRefs anchor).countP (resolvesIn m) := by
  rcases anchor with _ | b | n | q | s | xs | afs <;> simp [anchorOk] at ha
  obtain ⟨⟨⟨h1, h2⟩, hx⟩, href⟩ := ha
  rcases horef : alistGet afs "orientedSegmentRef" with _ | refsJ
  · rw [horef] at href; simp at href
  rw [horef] at href
  rcases refsJ with _ | b | n | q | s | rs | fs2 <;> simp at href
  obtain ⟨fs, hfold, hlen⟩ := segRefs_fold m nd afs h1 h2
    (fun kv hkv => hx kv.1 kv.2 hkv) rs [] href
  refine ⟨fs, ?_, ?_⟩
  · unfold processSegmentAnchor
    rw [pyItem_obj afs, horef, exBind_ok]
    simpa using hfold
  · simpa [anchorRefs, horef] using hlen

/-! ## Claim theorems -/

/-- Claim C1: the claim says segment-side cross-reference resolution runs
only after both anchor collections of the *same* partition are merged and
resolved, looking `nodeAnchorIndex` values up in that partition's node
anchors.  In the code, `node_anchor_dict` is defined only by the node pass
(line 205), which runs *after* the segment pass of the same file: on the
first file the segment-side lookup raises `NameError`, and on a later file
it resolves against the node anchors of the *previously processed*
partition (here: partition `A`'s anchor, inside partition `P`'s feature). -/
theorem c1_crossref_prior_partition :
    c1run1.err = some (.nameErr "node_anchor_dict") ∧
    alistGet c1run1.files "f1_segments.geojson" = some none ∧
    c1run2.err = none ∧
    alistGet c1run2.files "fB_segments.geojson"
      = some (some [⟨.linestring [(qi 0, qi 0), (qi 10, qi 0)], c1fbProps⟩]) ∧
    c1fbProps.hasKey "resolvedNodeAnchors" = true :=
  ⟨rfl, rfl, rfl, rfl, rfl⟩

/-- Claim C2 counterexample: a segment anchor with two resolvable oriented
references emits *two* features, the second sliced from the second
reference's geometry — refuting "at most one Feature per segment anchor"
and "remaining references never contribute geometry". -/
theorem c2_two_features_counterexample :
    processSegmentAnchor segMapAB none c2Anchor = .ok (c2Anchor, c2Feats) ∧
    ¬ (c2Feats.length ≤ 1) :=
  ⟨rfl, by decide⟩

/-- Claim C2 as amended: for every well-shaped segment anchor, one feature
is emitted per oriented segment reference whose identifier resolves in the
GeometryIndex (not only the first), and an anchor with no resolvable
reference emits none. -/
theorem c2_feature_per_resolvable_ref (m : String → Option (List Pt))
    (nd : Option (List J)) (anchor : J) (ha : anchorOk anchor = true) :
    ∃ fs, processSegmentAnchor m nd anchor = .ok (anchor, fs) ∧
      fs.length = (anchorRefs anchor).countP (resolvesIn m) :=
  segment_feature_count m nd anchor ha

/-- Claim C2 witness: the amended theorem applied to the three-reference
anchor, whose resolvable-reference count evaluates to 2. -/
theorem c2_feature_per_resolvable_ref_witness :
    anchorOk c2Anchor = true ∧
    (anchorRefs c2Anchor).countP (resolvesIn segMapAB) = 2 ∧
    (∃ fs, processSegmentAnchor segMapAB none c2Anchor = .ok (c2Anchor, fs) ∧
      fs.length = (anchorRefs c2Anchor).countP (resolvesIn segMapAB)) :=
  ⟨rfl, rfl, c2_feature_per_resolvable_ref segMapAB none c2Anchor rfl⟩

/-- Claim C3 counterexample: a collection whose first element carries
`segmentAnchorIndex` with value `0` is *not* processed — neither scan
touches the partition (the index field survives and no properties are
attached), although the claim requires processing regardless of value. -/
theorem c3_index_zero_skipped_counterexample :
    J.hasKey (.obj [("segmentAnchorIndex", .int 0), ("limit", .int 50)]) "segmentAnchorIndex"
      = true ∧
    segmentScan (c3part (.int 0)) = .ok (c3part (.int 0)) ∧
    nodeScan (c3part (.int 0)) = .ok (c3part (.int 0)) :=
  ⟨rfl, rfl, rfl⟩

/-- Claim C3 as amended: in the segment pass a collection is merged iff the
*truthiness* of the first element's index-field value holds (`[0]` is
truthy and merges, scalar `0` is falsy and the collection is skipped), and
in the node pass *every* element is sniffed, so a collection whose first
element lacks `nodeAnchorIndex` is still merged when a later element
carries a truthy one. -/
theorem c3_truthy_sniffing_amended :
    segmentScan (c3part (.arr [.int 0])) = .ok c3merged ∧
    segmentScan (c3part (.int 0)) = .ok (c3part (.int 0)) ∧
    nodeScan c3nodePart = .ok c3nodeMerged :=
  ⟨rfl, rfl, rfl⟩

/-- Claim C4 counterexample: the emitted segment feature's `properties` is
the *whole anchor record* — it contains `orientedSegmentRef` — not the
anchor's property map as the claim states. -/
theorem c4_full_record_properties_counterexample :
    alistGet c4run.files "f1_segments.geojson"
      = some (some [⟨.linestring [(qi 0, qi 0), (qi 10, qi 0)], c4segProps⟩]) ∧
    c4segProps.hasKey "orientedSegmentRef" = true ∧
    ¬ (c4segProps = .obj [("speedLimit", .obj [("limit", .int 50)])]) :=
  ⟨rfl, rfl, fun h => absurd (congrArg (fun j => J.hasKey j "orientedSegmentRef") h) (by decide)⟩

/-- Claim C4 as amended: node features carry the anchor's property map (no
`nodeRef`), while segment features carry the entire anchor record,
including `orientedSegmentRef` and the nested `properties` map. -/
theorem c4_properties_amended :
    alistGet c4run.files "f1_segments.geojson"
      = some (some [⟨.linestring [(qi 0, qi 0), (qi 10, qi 0)], c4segProps⟩]) ∧
    c4segProps.hasKey "orientedSegmentRef" = true ∧
    c4segProps.hasKey "properties" = true ∧
    alistGet c4run.files "f1_nodes.geojson"
      = some (some [⟨.point (qi 3, qi 4), c4nodeProps⟩]) ∧
    c4nodeProps.hasKey "nodeRef" = false ∧
    c4nodeProps.hasKey "orientedSegmentRef" = false :=
  ⟨rfl, rfl, rfl, rfl, rfl, rfl⟩

/-- Claim C5 counterexample: a segment anchor carrying an explicit
`lastSegmentEndOffset` of `0.0` is sliced with end offset `1.0` (the whole
line comes back), not `0.0` as the claim states. -/
theorem c5_zero_offset_counterexample :
    effectiveOffsets c5anchor = .ok (qi 0, qi 1) ∧
    processSegmentAnchor segMapAB none c5anchor
      = .ok (c5anchor, [⟨.linestring [(qi 0, qi 0), (qi 10, qi 0)], c5anchor⟩]) ∧
    ¬ (effectiveOffsets c5anchor = .ok (qi 0, qi 0)) :=
  ⟨rfl, rfl, fun h => absurd (congrArg (fun x =>
    match x with
    | Except.ok p => p.2
    | _ => qi 0) h) (by decide)⟩

/-- Claim C5 as amended: a numeric offset field is used exactly when its
value is truthy — an explicit zero behaves as if the field were absent, so
`startOffset = firstSegmentStartOffset if nonzero else 0.0` and
`endOffset = lastSegmentEndOffset if nonzero else 1.0`. -/
theorem c5_offset_truthiness_amended (s e : Q) :
    effectiveOffsets (offsetAnchor s e)
      = .ok ((if s.isZero then qi 0 else s), (if e.isZero then qi 1 else e)) := by
  by_cases hs : s.isZero <;> by_cases he : e.isZero <;>
    simp [effectiveOffsets, offsetVal, offsetAnchor, J.pyGet, J.truthy, toQNum, alistGet, hs, he]

/-- Claim C6 counterexample: an offset outside `[0, 1]`
(`lastSegmentEndOffset = 2.0`) raises nothing — the anchor is sliced (the
distance is clamped to the line's length) and a feature is emitted, where
the claim demands a fatal `InvalidOffsetRange` abort. -/
theorem c6_out_of_range_no_error_counterexample :
    processSegmentAnchor segMapAB none (offsetAnchor (qi 0) (qi 2))
      = .ok (offsetAnchor (qi 0) (qi 2),
          [⟨.linestring [(qi 0, qi 0), (qi 10, qi 0)], offsetAnchor (qi 0) (qi 2)⟩]) :=
  rfl

/-- Claim C6 as amended: the script performs no offset range validation at
all — for *every* pair of numeric offsets, slicing succeeds and exactly one
feature is produced for a resolvable single-reference anchor (out-of-range
distances are clamped inside the substring operation). -/
theorem c6_no_offset_validation_amended (s e : Q) :
    ∃ fs, processSegmentAnchor segMapAB none (offsetAnchor s e)
        = .ok (offsetAnchor s e, fs) ∧ fs.length = 1 := by
  obtain ⟨fs, hok, hlen⟩ := segment_feature_count segMapAB none (offsetAnchor s e) rfl
  exact ⟨fs, hok, by rw [hlen]; rfl⟩

/-- Claim C7 counterexample: for the node anchor whose property value
carries `segmentAnchorIndex: [2, 7]` with only 3 segment anchors, no error
is raised and the resolved list has length 1 — but it contains the *full
anchor record* of segment anchor 2 (with its `orientedSegmentRef` and
nested `properties`), not the property map alone as the claim states. -/
theorem c7_full_record_resolution_counterexample :
    c7run.err = none ∧
    alistGet c7run.files "f1_nodes.geojson"
      = some (some [⟨.point (qi 3, qi 4), c7outProps⟩]) ∧
    alistGet (match c7outProps with | .obj fs => fs | _ => []) "resolvedSegmentAnchors"
      = some (.arr [c7seg2]) ∧
    ¬ (J.arr [c7seg2] = J.arr [c7map2]) :=
  ⟨rfl, rfl, rfl, fun h => absurd (congrArg (fun j =>
    match j with
    | J.arr (x :: _) => x.hasKey "orientedSegmentRef"
    | _ => false) h) (by decide)⟩

/-- Claim C7 as amended: out-of-range indices are silently filtered from
the resolved list (no error), and the entries that remain are the *full
anchor records* of the in-range peers, stored under
`resolvedSegmentAnchors` on the property map. -/
theorem c7_resolution_amended (n : Int) (h : 3 ≤ n) :
    crossRef "segmentAnchorIndex" "resolvedSegmentAnchors" "segment_anchor_dict"
        (some c7segs) (c7props n)
      = .ok (.obj [("xattr", .obj [("segmentAnchorIndex", .arr [.int 2, .int n]), ("w", .int 2)]),
                   ("resolvedSegmentAnchors", .arr [c7seg2])]) := by
  have hnm : dictMem 3 (J.int n) = false := by
    unfold dictMem
    simp
    omega
  have h2m : dictMem 3 (J.int 2) = true := by decide
  simp [crossRef, crossRefStep, c7props, crossIdxList, foldE_cons, alistGet, alistSet,
    List.filter, List.filterMap, hnm, h2m, dictGet, c7segs]

/-- Claim C7 witness: the amended theorem at the concrete out-of-range
index 7. -/
theorem c7_resolution_amended_witness :
    (3 : Int) ≤ 7 ∧
    crossRef "segmentAnchorIndex" "resolvedSegmentAnchors" "segment_anchor_dict"
        (some c7segs) (c7props 7)
      = .ok (.obj [("xattr", .obj [("segmentAnchorIndex", .arr [.int 2, .int 7]), ("w", .int 2)]),
                   ("resolvedSegmentAnchors", .arr [c7seg2])]) :=
  ⟨by decide, c7_resolution_amended 7 (by decide)⟩

/-- Claim C8: linear referencing on a straight 2-point LineString of length
10 — offsets `(0, 1/2)` give the LineString from the start to the midpoint,
`(3/10, 3/10)` give the single Point at 30 percent arc length (a Point, not
a LineString), `(0, 1)` reproduce the original geometry; the last conjunct
checks the Point case end to end through the anchor-processing path. -/
theorem c8_linear_referencing_cases :
    segSlice lineA (qi 0) (mkQ 1 2) = .linestring [(qi 0, qi 0), (qi 5, qi 0)] ∧
    segSlice lineA (mkQ 3 10) (mkQ 3 10) = .point (qi 3, qi 0) ∧
    segSlice lineA (qi 0) (qi 1) = .linestring lineA ∧
    processSegmentAnchor segMapAB none (offsetAnchor (mkQ 3 10) (mkQ 3 10))
      = .ok (offsetAnchor (mkQ 3 10) (mkQ 3 10),
          [⟨.point (qi 3, qi 0), offsetAnchor (mkQ 3 10) (mkQ 3 10)⟩]) :=
  ⟨rfl, rfl, rfl, rfl⟩

/-- Claim C9 counterexample: an out-of-range `segmentAnchorIndex` (5, with
one anchor) does raise an `IndexError`, but the abort is *not* confined to
the current partition — the whole run stops and the second file is never
processed — and the first file's segment output has already been opened for
writing (truncated) before merging, so it is left behind empty; moreover a
*negative* out-of-range index (-1) raises nothing at all and silently
attaches the record to the last anchor. -/
theorem c9_global_abort_counterexample :
    (c9run (.int 5)).err = some .indexErr ∧
    alistGet (c9run (.int 5)).files "f1_segments.geojson" = some none ∧
    alistGet (c9run (.int 5)).files "f2_segments.geojson" = none ∧
    (c9run (.int (-1))).err = none ∧
    alistGet (c9run (.int (-1))).files "f1_segments.geojson" = some (some c9wrapFeats) :=
  ⟨rfl, rfl, rfl, rfl, rfl⟩

/-- Claim C9 as amended: for every index `n ≥ 1` pointing past the
one-anchor collection an `IndexError` is raised (the record is never
silently dropped), but the uncaught exception aborts the *entire run* — the
second partition file is never processed — and the first file's segment
output file was already truncated before merging began, so the abort leaves
it empty. -/
theorem c9_index_error_amended (n : Int) (h : 1 ≤ n) :
    (c9run (.int n)).err = some .indexErr ∧
    alistGet (c9run (.int n)).files "f1_segments.geojson" = some none ∧
    alistGet (c9run (.int n)).files "f2_segments.geojson" = none := by
  have htr : (n != 0) = true := by simp; omega
  have hneg : ¬ (n < 0) := by omega
  have hrange : ¬ (0 ≤ n ∧ n.toNat < 1) := by omega
  have hrange' : ¬ (0 ≤ n ∧ n ≤ 0) := by omega
  have hreset : resetProps (c9file (.int n)) "segmentAnchor" = .ok (c9r n) := rfl
  have hmerge : topology_anchor_attribute_mapping "speedLimit" "segmentAnchorIndex" (c9r n)
      = .error .indexErr := by
    simp [topology_anchor_attribute_mapping, mergeOne, attachTo, indexList, anchorKeyOf,
      pyIdxInt, pyIndex, foldE_cons, alistGet, alistDel, pyItem_obj, pyGet_obj, c9r,
      mkRef, hneg, hrange, hrange']
  have hs1 : segmentScanStep (c9r n) "partitionName" = .ok (c9r n) := rfl
  have hs2 : segmentScanStep (c9r n) "segmentAnchor" = .ok (c9r n) := rfl
  have hs3 : segmentScanStep (c9r n) "speedLimit" = .error .indexErr := by
    have hlook : alistGet (c9r n) "speedLimit"
        = some (J.arr [J.obj [("segmentAnchorIndex", J.int n), ("limit", J.int 30)]]) := rfl
    simp [segmentScanStep, hlook, pyGet_obj, alistGet, J.truthy, htr, hmerge]
  have hscan : segmentScan (c9r n) = .error .indexErr := by
    show foldE segmentScanStep (c9r n) ["partitionName", "segmentAnchor", "speedLimit"]
      = .error .indexErr
    rw [foldE_cons]
    simp only [hs1]
    rw [foldE_cons]
    simp only [hs2]
    rw [foldE_cons]
    simp only [hs3]
  have hfile : processFile segMapAB nodeMap1 false "f1" (c9file (.int n)) initSt
      = ⟨some [.obj [("orientedSegmentRef", .arr [mkRef "P" "segA"])]], none,
         [("f1_segments.geojson", none)], some .indexErr⟩ := by
    have hseg0 : alistGet (c9file (.int n)) "segmentAnchor"
        = some (J.arr [J.obj [("orientedSegmentRef", J.arr [mkRef "P" "segA"])]]) := rfl
    simp [processFile, segmentPassRun, hseg0, alistGet, alistSet, J.truthy, initSt,
      hreset, hscan]
  constructor
  · simp [c9run, runFiles, hfile]
  constructor
  · simp [c9run, runFiles, hfile, alistGet]
  · simp [c9run, runFiles, hfile, alistGet]

/-- Claim C9 witness: the amended theorem at the concrete index 5. -/
theorem c9_index_error_amended_witness :
    (1 : Int) ≤ 5 ∧
    ((c9run (.int 5)).err = some .indexErr ∧
     alistGet (c9run (.int 5)).files "f1_segments.geojson" = some none ∧
     alistGet (c9run (.int 5)).files "f2_segments.geojson" = none) :=
  ⟨by decide, c9_index_error_amended 5 (by decide)⟩

/-- Claim C10: a non-empty collection whose first element is not a record
makes the segment-pass scan raise immediately (the first index-field check
calls `.get` without a record guard), and the node-pass scan raises on such
an element at *any* position, since every element gets an unguarded
`.get` — the collection is never silently skipped. -/
theorem c10_scan_raises_on_non_record (k : String) (x : J) (xs : List J) (rest : Obj)
    (h : x.isObj = false) :
    segmentScan ((k, J.arr (x :: xs)) :: rest) = .error (.attrErr "get") ∧
    nodeScan ((k, J.arr (J.obj [] :: x :: xs)) :: rest) = .error (.attrErr "get") := by
  constructor
  · have hstep : segmentScanStep ((k, J.arr (x :: xs)) :: rest) k = .error (.attrErr "get") := by
      simp [segmentScanStep, alistGet, pyGet_nonObj x "segmentAnchorIndex" h]
    simp [segmentScan, foldE_cons, hstep]
  · have hstep : nodeScanKey ((k, J.arr (J.obj [] :: x :: xs)) :: rest) k
        = .error (.attrErr "get") := by
      simp [nodeScanKey, alistGet, Option.getD, List.range_succ_eq_map, foldE_cons,
        pyGet_obj, J.truthy, pyGet_nonObj x "nodeAnchorIndex" h]
    simp [nodeScan, foldE_cons, hstep]

/-- Claim C10 witness: both scans applied to a collection whose offending
element is the number 7. -/
theorem c10_scan_raises_witness :
    (J.int 7).isObj = false ∧
    segmentScan [("roadAttr", J.arr [J.int 7])] = .error (.attrErr "get") ∧
    nodeScan [("roadAttr", J.arr [J.obj [], J.int 7])] = .error (.attrErr "get") :=
  ⟨rfl, (c10_scan_raises_on_non_record "roadAttr" (J.int 7) [] [] rfl).1,
    (c10_scan_raises_on_non_record "roadAttr" (J.int 7) [] [] rfl).2⟩
